import Mathlib

/-
Verification development for the realistic-camera module
(src/cameras/realistic.cpp).  The C++ code is shallowly embedded over
exact rationals: every Float value is modelled as a rational number, and
every square root is taken through a partial exact square-root function
so that all definitions remain computable.  A computation whose exact
value would be irrational (or whose C++ counterpart would produce a
NaN/Infinity through a division by zero) is mapped to an explicit
"undefined" marker rather than silently given a value.
-/

namespace RC

/-- Rational 3-vector standing in for the pbrt Point3f / Vector3f /
Normal3f values used by the camera code. -/
structure Vec3 where
  x : ℚ
  y : ℚ
  z : ℚ
deriving DecidableEq

def Vec3.add (a b : Vec3) : Vec3 := ⟨a.x + b.x, a.y + b.y, a.z + b.z⟩

def Vec3.sub (a b : Vec3) : Vec3 := ⟨a.x - b.x, a.y - b.y, a.z - b.z⟩

def Vec3.neg (a : Vec3) : Vec3 := ⟨-a.x, -a.y, -a.z⟩

def Vec3.smul (c : ℚ) (a : Vec3) : Vec3 := ⟨c * a.x, c * a.y, c * a.z⟩

def Vec3.dot (a b : Vec3) : ℚ := a.x * b.x + a.y * b.y + a.z * b.z

/-- Ray: origin plus direction, as in the camera code (time and medium
tags play no role in the traced geometry and are omitted). -/
structure Ray where
  o : Vec3
  d : Vec3
deriving DecidableEq

/-- Point reached at parameter t along a ray, pbrt ray(t). -/
def rayAt (r : Ray) (t : ℚ) : Vec3 := Vec3.add r.o (Vec3.smul t r.d)

/-- Exact rational square root: some s with s * s = q and 0 ≤ s when such
a rational exists, none otherwise.  This is the computable stand-in for
std::sqrt in the exact-arithmetic model; inputs whose square root is
irrational make the surrounding computation "undefined" in the model. -/
def ratSqrt (q : ℚ) : Option ℚ :=
  if 0 ≤ q then
    let sn := Nat.sqrt q.num.toNat
    let sd := Nat.sqrt q.den
    if sn * sn = q.num.toNat ∧ sd * sd = q.den then some ((sn : ℚ) / (sd : ℚ)) else none
  else none

/-- Modelled from the spec: pbrt Lerp (not under src/), linear
interpolation (1 - t) * a + t * b. -/
def lerp (t a b : ℚ) : ℚ := (1 - t) * a + t * b

/-- Modelled from the spec: Normalize (geometry header, not under src/).
Divides a vector by its length; undefined (none) when the length is
irrational or zero (a zero length would be a division by zero in C++). -/
def Vec3.normalize (v : Vec3) : Option Vec3 :=
  match ratSqrt (Vec3.dot v v) with
  | none => none
  | some l => if l = 0 then none else some ⟨v.x / l, v.y / l, v.z / l⟩

/-- Modelled from the spec: Faceforward (geometry header, not under
src/): the returned normal points away from the incoming direction, that
is, it is flipped when its dot product with v is negative. -/
def faceforward (n v : Vec3) : Vec3 := if Vec3.dot n v < 0 then Vec3.neg n else n

/-- One optical surface of the prescription, as loaded by the
constructor (values already converted; the aperture field stores the
radius, i.e. half the diameter). -/
structure LensElementInterface where
  curvatureRadius : ℚ
  thickness : ℚ
  eta : ℚ
  apertureRadius : ℚ
deriving DecidableEq

/-- Result of a trace or intersection: undefined in the exact model
(irrational square root, or a division by zero that would produce
NaN/Infinity in C++), vignetted (the boolean false of the C++ code), or
a successful value. -/
inductive TraceResult (α : Type) where
  | undef : TraceResult α
  | vignetted : TraceResult α
  | hit : α → TraceResult α
deriving DecidableEq

/-- Quadratic coefficients A, B, C of the ray-sphere equation, as set up
at the top of RealisticCamera::IntersectSphericalElement. -/
def quadCoeffs (radius center : ℚ) (ray : Ray) : ℚ × ℚ × ℚ :=
  let o := Vec3.sub ray.o ⟨0, 0, center⟩
  (Vec3.dot ray.d ray.d, 2 * Vec3.dot ray.d o, Vec3.dot o o - radius * radius)

/-- Discriminant of the ray-sphere quadratic. -/
def discOf (radius center : ℚ) (ray : Ray) : ℚ :=
  let co := quadCoeffs radius center ray
  co.2.1 * co.2.1 - 4 * co.1 * co.2.2

/-- Modelled from the spec: the Quadratic solver (core pbrt header, not
under src/): a discriminant ≤ 0 is a miss; otherwise it returns the two
real roots.  Outer none marks an irrational square root (outside the
rational model); inner none is the miss. -/
def quadratic (A B C : ℚ) : Option (Option (ℚ × ℚ)) :=
  let disc := B * B - 4 * A * C
  if disc ≤ 0 then some none
  else
    match ratSqrt disc with
    | none => none
    | some s => some (some ((-B - s) / (2 * A), (-B + s) / (2 * A)))

/-- Root selected by IntersectSphericalElement: the smaller root exactly
when (ray.d.z > 0) xor (radius < 0), else the larger (source lines
162-163), given s = sqrt of the discriminant. -/
def tSelOf (radius center : ℚ) (ray : Ray) (s : ℚ) : ℚ :=
  let co := quadCoeffs radius center ray
  let t0 := (-co.2.1 - s) / (2 * co.1)
  let t1 := (-co.2.1 + s) / (2 * co.1)
  if Bool.xor (decide (0 < ray.d.z)) (decide (radius < 0)) then min t0 t1 else max t0 t1

/-- RealisticCamera::IntersectSphericalElement (source lines 150-170):
solve the quadratic, select the root by the direction/curvature rule,
reject a negative parameter, and face-forward the normalized normal
against the incoming direction. -/
def intersectSphericalElement (radius center : ℚ) (ray : Ray) : TraceResult (ℚ × Vec3) :=
  let co := quadCoeffs radius center ray
  match quadratic co.1 co.2.1 co.2.2 with
  | none => .undef
  | some none => .vignetted
  | some (some (t0, t1)) =>
    let t := if Bool.xor (decide (0 < ray.d.z)) (decide (radius < 0)) then min t0 t1 else max t0 t1
    if t < 0 then .vignetted
    else
      let o := Vec3.sub ray.o ⟨0, 0, center⟩
      match Vec3.normalize (Vec3.add o (Vec3.smul t ray.d)) with
      | none => .undef
      | some nh => .hit (t, faceforward nh (Vec3.neg ray.d))

/-- Modelled from the spec: Refract (reflection header, not under src/):
Snell-law refraction of wi about normal n with relative index eta;
inner none is total internal reflection (which vignettes the ray),
outer none an irrational square root. -/
def refract (wi n : Vec3) (eta : ℚ) : Option (Option Vec3) :=
  let cosThetaI := Vec3.dot n wi
  let sin2ThetaI := max 0 (1 - cosThetaI * cosThetaI)
  let sin2ThetaT := eta * eta * sin2ThetaI
  if 1 ≤ sin2ThetaT then some none
  else
    match ratSqrt (1 - sin2ThetaT) with
    | none => none
    | some cosThetaT =>
        some (some (Vec3.add (Vec3.smul eta (Vec3.neg wi))
          (Vec3.smul (eta * cosThetaI - cosThetaT) n)))

/-- Modelled from the spec: the fixed axis flip Scale(1, 1, -1) between
camera space and the lens-local frame. -/
def cameraToLens (r : Ray) : Ray := ⟨⟨r.o.x, r.o.y, -r.o.z⟩, ⟨r.d.x, r.d.y, -r.d.z⟩⟩

/-- Modelled from the spec: the inverse axis flip back to camera space
(the same Scale(1, 1, -1)). -/
def lensToCamera (r : Ray) : Ray := ⟨⟨r.o.x, r.o.y, -r.o.z⟩, ⟨r.d.x, r.d.y, -r.d.z⟩⟩

/-- Intersection parameter used at an aperture-stop surface in both
trace directions (source lines 115 and 184): t = -(o.z - elementZ) / d.z,
with no guard against d.z = 0 in the source. -/
def stopIntersectT (oz elementZ dz : ℚ) : ℚ := -(oz - elementZ) / dz

/-- eta_i of the film-to-scene trace (source line 133): the refractive
index stored at this surface, used as is. -/
def etaIncidentFromFilm (e : LensElementInterface) : ℚ := e.eta

/-- eta_t of the film-to-scene trace (source lines 134-136): the
previous surface index when there is one and it is nonzero, else 1.
In the reversed traversal the previous surface (index i - 1) is the head
of the remaining list. -/
def etaTransmittedFromFilm (rest : List LensElementInterface) : ℚ :=
  match rest.head? with
  | some p => if p.eta = 0 then 1 else p.eta
  | none => 1

/-- Traversal core of RealisticCamera::TraceLensesFromFilm (source lines
105-141).  The element list is given rear-first (the reverse of the
prescription); elementZ accumulates downward by each thickness.  At a
stop the intersection is the plane test (undefined when d.z = 0, where
the C++ division would produce Infinity/NaN); at a refracting surface it
is the spherical intersection followed by the aperture test and Snell
refraction with ratio eta_i / eta_t. -/
def traceFromFilmAux : Ray → ℚ → List LensElementInterface → TraceResult Ray
  | rLens, _, [] => .hit rLens
  | rLens, elementZ0, e :: rest =>
    let elementZ := elementZ0 - e.thickness
    if e.curvatureRadius = 0 then
      if rLens.d.z = 0 then .undef
      else
        let t := stopIntersectT rLens.o.z elementZ rLens.d.z
        let pHit := rayAt rLens t
        if pHit.x * pHit.x + pHit.y * pHit.y > e.apertureRadius * e.apertureRadius then
          .vignetted
        else traceFromFilmAux ⟨pHit, rLens.d⟩ elementZ rest
    else
      match intersectSphericalElement e.curvatureRadius (elementZ + e.curvatureRadius) rLens with
      | .undef => .undef
      | .vignetted => .vignetted
      | .hit (t, n) =>
        let pHit := rayAt rLens t
        if pHit.x * pHit.x + pHit.y * pHit.y > e.apertureRadius * e.apertureRadius then
          .vignetted
        else
          match Vec3.normalize (Vec3.neg rLens.d) with
          | none => .undef
          | some wi =>
            match refract wi n (etaIncidentFromFilm e / etaTransmittedFromFilm rest) with
            | none => .undef
            | some none => .vignetted
            | some (some w) => traceFromFilmAux ⟨pHit, w⟩ elementZ rest

/-- RealisticCamera::TraceLensesFromFilm (source lines 100-148): flip
into the lens frame, walk the prescription rear-first from elementZ = 0,
flip back on success. -/
def traceLensesFromFilm (elems : List LensElementInterface) (ray : Ray) : TraceResult Ray :=
  match traceFromFilmAux (cameraToLens ray) 0 elems.reverse with
  | .undef => .undef
  | .vignetted => .vignetted
  | .hit r => .hit (lensToCamera r)

/-- Modelled from the spec: LensFrontZ (camera header, not under src/):
the cumulative sum of the surface thicknesses, giving the axial extent
of the assembly. -/
def lensFrontZ (elems : List LensElementInterface) : ℚ :=
  (elems.map (fun e => e.thickness)).sum

/-- Modelled from the spec: LensRearZ (camera header, not under src/):
the axial separation between the film and the rearmost surface, stored
as the thickness of the last surface. -/
def lensRearZ (elems : List LensElementInterface) : ℚ :=
  ((elems.getLast?).map (fun e => e.thickness)).getD 0

/-- Modelled from the spec: RearElementRadius (camera header, not under
src/): the aperture radius of the rearmost surface. -/
def rearElementRadius (elems : List LensElementInterface) : ℚ :=
  ((elems.getLast?).map (fun e => e.apertureRadius)).getD 0

/-- Traversal core of RealisticCamera::TraceLensesFromScene (source
lines 177-213): elements scene-first, elementZ accumulating forward
after each surface, the index lookup reversed: eta_i is the previous
surface index (1 when none or zero), eta_t this surface index (1 when
zero). -/
def traceFromSceneAux : Ray → ℚ → Option ℚ → List LensElementInterface → TraceResult Ray
  | rLens, _, _, [] => .hit rLens
  | rLens, elementZ, prevEta, e :: rest =>
    if e.curvatureRadius = 0 then
      if rLens.d.z = 0 then .undef
      else
        let t := stopIntersectT rLens.o.z elementZ rLens.d.z
        let pHit := rayAt rLens t
        if pHit.x * pHit.x + pHit.y * pHit.y > e.apertureRadius * e.apertureRadius then
          .vignetted
        else traceFromSceneAux ⟨pHit, rLens.d⟩ (elementZ + e.thickness) (some e.eta) rest
    else
      match intersectSphericalElement e.curvatureRadius (elementZ + e.curvatureRadius) rLens with
      | .undef => .undef
      | .vignetted => .vignetted
      | .hit (t, n) =>
        let pHit := rayAt rLens t
        if pHit.x * pHit.x + pHit.y * pHit.y > e.apertureRadius * e.apertureRadius then
          .vignetted
        else
          let etaI := match prevEta with
            | none => 1
            | some pe => if pe = 0 then 1 else pe
          let etaT := if e.eta = 0 then 1 else e.eta
          match Vec3.normalize (Vec3.neg rLens.d) with
          | none => .undef
          | some wi =>
            match refract wi n (etaI / etaT) with
            | none => .undef
            | some none => .vignetted
            | some (some w) =>
                traceFromSceneAux ⟨pHit, w⟩ (elementZ + e.thickness) (some e.eta) rest

/-- RealisticCamera::TraceLensesFromScene (source lines 172-220): flip
into the lens frame, walk the prescription scene-first from
elementZ = -LensFrontZ(), flip back on success. -/
def traceLensesFromScene (elems : List LensElementInterface) (ray : Ray) : TraceResult Ray :=
  match traceFromSceneAux (cameraToLens ray) (-(lensFrontZ elems)) none elems with
  | .undef => .undef
  | .vignetted => .vignetted
  | .hit r => .hit (lensToCamera r)

/-- Axis-aligned 2D rectangle, the Bounds2f of the exit-pupil machinery. -/
structure Bounds2 where
  pMin : ℚ × ℚ
  pMax : ℚ × ℚ
deriving DecidableEq

/-- Modelled from the spec: Bounds2f area (geometry header, not under
src/). -/
def Bounds2.area (b : Bounds2) : ℚ :=
  (b.pMax.1 - b.pMin.1) * (b.pMax.2 - b.pMin.2)

/-- Modelled from the spec: Bounds2f Union (geometry header, not under
src/): componentwise min of the minima and max of the maxima. -/
def Bounds2.union (a b : Bounds2) : Bounds2 :=
  ⟨(min a.pMin.1 b.pMin.1, min a.pMin.2 b.pMin.2),
   (max a.pMax.1 b.pMax.1, max a.pMax.2 b.pMax.2)⟩

/-- Modelled from the spec: Bounds2f::Lerp (geometry header, not under
src/): componentwise linear interpolation into the rectangle. -/
def Bounds2.lerp2 (b : Bounds2) (uv : ℚ × ℚ) : ℚ × ℚ :=
  (lerp uv.1 b.pMin.1 b.pMax.1, lerp uv.2 b.pMin.2 b.pMax.2)

/-- Modelled from the spec: Inside for Bounds2f (geometry header, not
under src/): componentwise inclusive containment. -/
def Bounds2.inside (p : ℚ × ℚ) (b : Bounds2) : Prop :=
  b.pMin.1 ≤ p.1 ∧ p.1 ≤ b.pMax.1 ∧ b.pMin.2 ≤ p.2 ∧ p.2 ≤ b.pMax.2

instance (p : ℚ × ℚ) (b : Bounds2) : Decidable (Bounds2.inside p b) := by
  unfold Bounds2.inside; infer_instance

/-- Modelled from the spec: Expand for Bounds2f (geometry header, not
under src/): grow the rectangle by delta on every side. -/
def expand2 (b : Bounds2) (delta : ℚ) : Bounds2 :=
  ⟨(b.pMin.1 - delta, b.pMin.2 - delta), (b.pMax.1 + delta, b.pMax.2 + delta)⟩

/-- Union of a rectangle with a point (pbrt Union(Bounds2f, Point2f)). -/
def bUnionPt (b : Bounds2) (q : ℚ × ℚ) : Bounds2 :=
  ⟨(min b.pMin.1 q.1, min b.pMin.2 q.2), (max b.pMax.1 q.1, max b.pMax.2 q.2)⟩

/-- Bounding rectangle of a nonempty point list: the running Union of
BoundExitPupil, seeded with the first point. -/
def bboxOfPoints (p : ℚ × ℚ) (ps : List (ℚ × ℚ)) : Bounds2 :=
  ps.foldl bUnionPt ⟨p, p⟩

/-- Grid resolution of BoundExitPupil (source line 519, nSamples = 1024). -/
def pupilSampleCount : ℕ := 1024

/-- Candidate rear-plane point of the BoundExitPupil grid (source lines
529-533): cell-centered lerp across the conservative square
[-1.2 rearRadius, 1.2 rearRadius] at z = LensRearZ. -/
def pupilCandidate (rearRadius rearZ : ℚ) (x y : ℕ) : Vec3 :=
  ⟨lerp (((x : ℚ) + 1/2) / (pupilSampleCount : ℚ)) (-(6/5) * rearRadius) ((6/5) * rearRadius),
   lerp (((y : ℚ) + 1/2) / (pupilSampleCount : ℚ)) (-(6/5) * rearRadius) ((6/5) * rearRadius),
   rearZ⟩

/-- All grid candidates, y outer and x inner as in the source loops. -/
def pupilCandidates (rearRadius rearZ : ℚ) : List Vec3 :=
  (List.range pupilSampleCount).flatMap fun y =>
    (List.range pupilSampleCount).map fun x => pupilCandidate rearRadius rearZ x y

/-- Whether the ray from the film point to the candidate makes it
through the lens system (source line 536). -/
def exitsPupil (elems : List LensElementInterface) (pFilm3 pRear : Vec3) : Bool :=
  match traceLensesFromFilm elems ⟨pFilm3, Vec3.sub pRear pFilm3⟩ with
  | .hit _ => true
  | _ => false

/-- The 2D projections of the grid candidates that exit the lens system
(the points accumulated into pupilBounds by the source loop). -/
def exitingPupilPoints (elems : List LensElementInterface) (pFilm : ℚ × ℚ) : List (ℚ × ℚ) :=
  ((pupilCandidates (rearElementRadius elems) (lensRearZ elems)).filter
      (fun pRear => exitsPupil elems ⟨pFilm.1, pFilm.2, 0⟩ pRear)).map
    (fun p => (p.x, p.y))

/-- RealisticCamera::BoundExitPupil (source lines 515-553): the bounding
rectangle of the exiting candidates expanded by 2 * rearRadius / nSamples
on each side, or the full rear-element square when no candidate exits. -/
def boundExitPupil (elems : List LensElementInterface) (pFilm : ℚ × ℚ) : Bounds2 :=
  let rearRadius := rearElementRadius elems
  match exitingPupilPoints elems pFilm with
  | [] => ⟨(-rearRadius, -rearRadius), (rearRadius, rearRadius)⟩
  | p :: ps => expand2 (bboxOfPoints p ps) (2 * rearRadius / (pupilSampleCount : ℚ))

/-- Bucket rectangle at a clamped index, unioned with the following
bucket when there is one (source lines 604-606 and 711-713). -/
def pupilUnionAt (epb : List Bounds2) (idx : ℕ) : Bounds2 :=
  if idx + 1 < epb.length then
    (epb.getD idx ⟨(0, 0), (0, 0)⟩).union (epb.getD (idx + 1) ⟨(0, 0), (0, 0)⟩)
  else epb.getD idx ⟨(0, 0), (0, 0)⟩

/-- The radius-bucket lookup shared verbatim by SampleExitPupil (source
lines 598-606) and ExitPupilPdf (source lines 705-713): map the film
radius to a bucket index, clamp it, and union with the next bucket when
there is one. -/
def pupilBoundsFor (epb : List Bounds2) (rFilm diagonal : ℚ) : Bounds2 :=
  pupilUnionAt epb
    (min (epb.length - 1)
      (Int.toNat ⌊rFilm / (diagonal / 2) * ((epb.length - 1 : ℕ) : ℚ)⌋))

/-- RealisticCamera::SampleExitPupil (source lines 595-617): look up the
bucket-union rectangle, lerp the [0,1]^2 sample into it, and rotate by
the azimuth of the film point (undefined when the film radius is
irrational). -/
def sampleExitPupil (epb : List Bounds2) (diagonal : ℚ) (pFilm uv : ℚ × ℚ) :
    Option (ℚ × ℚ) :=
  match ratSqrt (pFilm.1 * pFilm.1 + pFilm.2 * pFilm.2) with
  | none => none
  | some rFilm =>
    let pb := pupilBoundsFor epb rFilm diagonal
    let pLens := pb.lerp2 uv
    let s := if rFilm = 0 then 0 else pFilm.2 / rFilm
    let c := if rFilm = 0 then 1 else pFilm.1 / rFilm
    some (c * pLens.1 - s * pLens.2, s * pLens.1 + c * pLens.2)

/-- RealisticCamera::ExitPupilPdf (source lines 697-726): look up the
same bucket-union rectangle, rotate the rear point by the negative
azimuth, and return 1 / area inside the rectangle, 0 outside. -/
def exitPupilPdf (epb : List Bounds2) (diagonal : ℚ) (pFilm pExit : ℚ × ℚ) : Option ℚ :=
  match ratSqrt (pFilm.1 * pFilm.1 + pFilm.2 * pFilm.2) with
  | none => none
  | some rFilm =>
    let pb := pupilBoundsFor epb rFilm diagonal
    let s := if rFilm = 0 then 0 else -pFilm.2 / rFilm
    let c := if rFilm = 0 then 1 else pFilm.1 / rFilm
    let pRot := (c * pExit.1 - s * pExit.2, s * pExit.1 + c * pExit.2)
    if Bounds2.inside pRot pb then some (1 / pb.area) else some 0

/-- External film data consumed by GenerateRay: full resolution,
physical size, and diagonal of the image plane. -/
structure FilmParams where
  fullResX : ℚ
  fullResY : ℚ
  physSizeX : ℚ
  physSizeY : ℚ
  diagonal : ℚ
deriving DecidableEq

/-- Camera sample: raster film position and lens sample (the shutter
time plays no role in the traced geometry and is omitted). -/
structure CameraSample where
  pFilmX : ℚ
  pFilmY : ℚ
  pLensU : ℚ
  pLensV : ℚ
deriving DecidableEq

/-- Physical film point of a camera sample (source lines 670-675). -/
def filmPoint (film : FilmParams) (sample : CameraSample) : Vec3 :=
  let sx := (sample.pFilmX - film.fullResX / 2) / film.fullResX
  let sy := (sample.pFilmY - film.fullResY / 2) / film.fullResY
  ⟨-sx * film.physSizeX, sy * film.physSizeY, 0⟩

/-- The film-to-rear-surface ray built by GenerateRay (source line 677)
from the film point and the sampled rear point. -/
def rearRayFromSample (elems : List LensElementInterface) (pFilm : Vec3) (pr : ℚ × ℚ) : Ray :=
  ⟨pFilm, Vec3.sub ⟨pr.1, pr.2, lensRearZ elems⟩ pFilm⟩

/-- Outcome of GenerateRay: the returned weight, whether the sample was
counted as a vignetted ray (the ++vignettedRays statistic), and the
generated camera-space ray when one exists. -/
structure GenResult where
  weight : ℚ
  vignettedEvent : Bool
  ray : Option Ray
deriving DecidableEq

/-- RealisticCamera::GenerateRay (source lines 665-695): build the film
point and the ray toward the sampled exit-pupil point, trace it, return
weight 0 and count a vignetted ray on trace failure, else weight the ray
by cos^4 (divided by rearZ^2 times the pupil density when unbiased
weighting is requested).  The world transform and medium tag are
external collaborators and are not modelled. -/
def generateRay (film : FilmParams) (epb : List Bounds2) (elems : List LensElementInterface)
    (simpleWeighting : Bool) (sample : CameraSample) : Option GenResult :=
  match sampleExitPupil epb film.diagonal
      ((filmPoint film sample).x, (filmPoint film sample).y)
      (sample.pLensU, sample.pLensV) with
  | none => none
  | some pr =>
    match traceLensesFromFilm elems (rearRayFromSample elems (filmPoint film sample) pr) with
    | .undef => none
    | .vignetted => some ⟨0, true, none⟩
    | .hit r =>
      match Vec3.normalize (rearRayFromSample elems (filmPoint film sample) pr).d with
      | none => none
      | some nd =>
        if simpleWeighting then some ⟨(nd.z * nd.z) * (nd.z * nd.z), false, some r⟩
        else
          match exitPupilPdf epb film.diagonal
              ((filmPoint film sample).x, (filmPoint film sample).y) pr with
          | none => none
          | some pdf =>
              some ⟨(nd.z * nd.z) * (nd.z * nd.z) /
                (lensRearZ elems * lensRearZ elems * pdf), false, some r⟩

/-- Comparison FocusDistance(x) > target of the bracket-expansion loop,
where none models the Infinity returned when the focus ray vignettes or
crosses behind the camera (IEEE Infinity compares greater than any
finite target). -/
def fdGT (v : Option ℚ) (t : ℚ) : Bool :=
  match v with
  | none => true
  | some q => decide (t < q)

/-- Comparison FocusDistance(x) < target (Infinity compares false). -/
def fdLT (v : Option ℚ) (t : ℚ) : Bool :=
  match v with
  | none => false
  | some q => decide (q < t)

/-- The first bracket-expansion loop of FocusBinarySearch (source lines
476-477): while FocusDistance(lower) > focusDistance multiply lower by
1.005, here run on explicit fuel because the source loop has no bound;
none means the loop did not exit within the given fuel. -/
def expandLower (F : ℚ → Option ℚ) (target : ℚ) : ℚ → ℕ → Option ℚ
  | x, 0 => if fdGT (F x) target then none else some x
  | x, n + 1 => if fdGT (F x) target then expandLower F target (x * (201 / 200)) n else some x

/-- The second bracket-expansion loop of FocusBinarySearch (source lines
478-479): while FocusDistance(upper) < focusDistance divide upper by
1.005, on explicit fuel. -/
def expandUpper (F : ℚ → Option ℚ) (target : ℚ) : ℚ → ℕ → Option ℚ
  | x, 0 => if fdLT (F x) target then none else some x
  | x, n + 1 => if fdLT (F x) target then expandUpper F target (x / (201 / 200)) n else some x

/-- One bisection iteration of FocusBinarySearch (source lines 483-488):
probe the midpoint and keep the half whose FocusDistance brackets the
target. -/
def bisectStep (F : ℚ → Option ℚ) (target : ℚ) (p : ℚ × ℚ) : ℚ × ℚ :=
  let fmid := (p.1 + p.2) / 2
  if fdLT (F fmid) target then (fmid, p.2) else (p.1, fmid)

/-- RealisticCamera::FocusBinarySearch (source lines 472-491) with the
FocusDistance oracle F abstracted and the seed (the FocusThickLens
estimate computed at line 475) passed in: expand both brackets, run
exactly 20 bisection iterations, and return the midpoint of the final
bracket. -/
def focusBinarySearchCore (F : ℚ → Option ℚ) (target seed : ℚ) (fuel : ℕ) : Option ℚ :=
  match expandLower F target seed fuel, expandUpper F target seed fuel with
  | some lo, some hi =>
      let q := (bisectStep F target)^[20] (lo, hi)
      some ((q.1 + q.2) / 2)
  | _, _ => none

/-- Termination of the lower bracket-expansion loop: some fuel makes the
loop exit. -/
def expandLowerTerminates (F : ℚ → Option ℚ) (target seed : ℚ) : Prop :=
  ∃ n, (expandLower F target seed n).isSome

/-- RealisticCamera::FocusThickLens (source lines 456-470) with the
cardinal points pz0, pz1 and focal z fz0 of ComputeThickLensApproximation
passed in.  The source takes sqrt of the two radicands with no sign
check: a negative radicand is a NaN in C++, modelled by the inner none,
which the function returns as its ordinary result; there is no error
path.  The outer none marks an irrational square root. -/
def focusThickLensCore (pz0 pz1 fz0 backThick focusDist : ℚ) : Option (Option ℚ) :=
  let fp := fz0 - pz0
  let zf := -focusDist
  let r1 := pz1 - zf - pz0
  let r2 := pz1 - zf - 4 * fp - pz0
  if r1 < 0 ∨ r2 < 0 then some none
  else
    match ratSqrt r1, ratSqrt r2 with
    | some s1, some s2 => some (some (backThick + (1/2) * (pz1 - zf - s1 * s2 + pz0)))
    | _, _ => none

/-- Thickness of the last surface, the field named thickness of
elementInterfaces.back(). -/
def backThickness (elems : List LensElementInterface) : ℚ :=
  ((elems.getLast?).map (fun e => e.thickness)).getD 0

/-- Overwrite of the last surface thickness performed at construction
(source line 86). -/
def updateBackThickness : List LensElementInterface → ℚ → List LensElementInterface
  | [], _ => []
  | [e], v => [{ e with thickness := v }]
  | e :: e2 :: rest, v => e :: updateBackThickness (e2 :: rest) v

/-- The focus step of the RealisticCamera constructor (source lines
83-88): compute fb = FocusBinarySearch(focusDistance) (whose value is
only logged), then overwrite the last surface thickness with
FocusThickLens(focusDistance).  Both solver cores take the cardinal
points and the FocusDistance oracle as inputs; the binary search is
seeded with the thick-lens estimate exactly as at source line 475.
Returns the updated prescription together with the logged fb. -/
def cameraFocusStep (F : ℚ → Option ℚ) (pz0 pz1 fz0 : ℚ)
    (elems : List LensElementInterface) (focusDist : ℚ) (fuel : ℕ) :
    Option (List LensElementInterface × ℚ) :=
  if elems.isEmpty then none
  else
    match focusThickLensCore pz0 pz1 fz0 (backThickness elems) focusDist with
    | some (some v) =>
      match focusBinarySearchCore F focusDist v fuel with
      | some fb => some (updateBackThickness elems v, fb)
      | none => none
    | _ => none

/-- Concrete one-surface prescription (a single aperture stop of radius
1 at thickness 1) used to instantiate the exit-pupil bound theorems on a
fully rational trace. -/
def elemsC6 : List LensElementInterface := [⟨0, 1, 0, 1⟩]

/-- Concrete two-stop prescription whose scene-side stop has zero
aperture; from the film point (1, 0) every grid candidate ray is
vignetted, which exercises the no-exit fallback of BoundExitPupil. -/
def elemsC8 : List LensElementInterface := [⟨0, 1, 0, 0⟩, ⟨0, 1, 0, 1⟩]

/-- Follows the claim wording of C4, not the source: the incident index
with a stored 0 replaced by 1. -/
def etaIncidentClaimC4 (e : LensElementInterface) : ℚ :=
  if e.eta = 0 then 1 else e.eta

/-- Follows the claim wording of C6, not the source: the bounding
rectangle of the exiting candidates expanded by one half grid-cell width
(the sampling square has side 2.4 rearRadius and 1024 cells per axis, so
a half cell is 1.2 rearRadius / 1024) with the same fallback. -/
def claimedBoundExitPupil (elems : List LensElementInterface) (pFilm : ℚ × ℚ) : Bounds2 :=
  let rearRadius := rearElementRadius elems
  match exitingPupilPoints elems pFilm with
  | [] => ⟨(-rearRadius, -rearRadius), (rearRadius, rearRadius)⟩
  | p :: ps =>
      expand2 (bboxOfPoints p ps) ((1/2) * (2 * (6/5) * rearRadius / (pupilSampleCount : ℚ)))

end RC

namespace RC

/-- Soundness of the exact rational square root: a returned value is the
nonnegative square root of the input. -/
theorem ratSqrt_sound (q s : ℚ) (h : ratSqrt q = some s) : 0 ≤ s ∧ s * s = q := by
  unfold ratSqrt at h
  by_cases hq : 0 ≤ q
  · rw [if_pos hq] at h
    by_cases hcond : Nat.sqrt q.num.toNat * Nat.sqrt q.num.toNat = q.num.toNat ∧
        Nat.sqrt q.den * Nat.sqrt q.den = q.den
    · rw [if_pos hcond] at h
      obtain ⟨h1, h2⟩ := hcond
      injection h with h
      subst h
      refine ⟨by positivity, ?_⟩
      have hnum : ((q.num.toNat : ℚ)) = ((q.num : ℤ) : ℚ) := by
        have := Int.toNat_of_nonneg (Rat.num_nonneg.mpr hq)
        exact_mod_cast congrArg (fun z => ((z : ℤ) : ℚ)) this
      calc (Nat.sqrt q.num.toNat : ℚ) / (Nat.sqrt q.den : ℚ) *
            ((Nat.sqrt q.num.toNat : ℚ) / (Nat.sqrt q.den : ℚ))
          = ((Nat.sqrt q.num.toNat * Nat.sqrt q.num.toNat : ℕ) : ℚ) /
            ((Nat.sqrt q.den * Nat.sqrt q.den : ℕ) : ℚ) := by
            rw [div_mul_div_comm]
            norm_cast
        _ = ((q.num.toNat : ℕ) : ℚ) / ((q.den : ℕ) : ℚ) := by rw [h1, h2]
        _ = ((q.num : ℤ) : ℚ) / ((q.den : ℕ) : ℚ) := by rw [hnum]
        _ = q := Rat.num_div_den q
    · rw [if_neg hcond] at h
      cases h
  · rw [if_neg hq] at h
    cases h

/-- The face-forwarded normal has nonnegative dot product with the
reference direction. -/
theorem faceforward_dot (n v : Vec3) : 0 ≤ Vec3.dot (faceforward n v) v := by
  unfold faceforward
  by_cases h : Vec3.dot n v < 0
  · rw [if_pos h]
    have hne : Vec3.dot (Vec3.neg n) v = -Vec3.dot n v := by
      simp only [Vec3.dot, Vec3.neg]
      ring
    rw [hne]
    linarith
  · rw [if_neg h]
    linarith

/-- Dot product with a negated second argument. -/
theorem dot_neg_right (a b : Vec3) : Vec3.dot a (Vec3.neg b) = -Vec3.dot a b := by
  simp only [Vec3.dot, Vec3.neg]
  ring

/-- A lerp of a parameter in the unit interval stays inside the segment. -/
theorem lerp_bounds (u lo hi : ℚ) (h0 : 0 ≤ u) (h1 : u ≤ 1) (hlh : lo ≤ hi) :
    lo ≤ lerp u lo hi ∧ lerp u lo hi ≤ hi := by
  unfold lerp
  constructor <;> nlinarith

/-- Each bisection iteration of FocusBinarySearch halves the bracket
width. -/
theorem bisectStep_width (F : ℚ → Option ℚ) (target : ℚ) (n : ℕ) (p : ℚ × ℚ) :
    ((bisectStep F target)^[n] p).2 - ((bisectStep F target)^[n] p).1 = (p.2 - p.1) / 2 ^ n := by
  induction n generalizing p with
  | zero => simp
  | succ k ih =>
    rw [Function.iterate_succ_apply, ih]
    unfold bisectStep
    by_cases h : fdLT (F ((p.1 + p.2) / 2)) target = true
    · rw [if_pos h]
      push_cast
      field_simp
      ring
    · rw [if_neg h]
      push_cast
      field_simp
      ring

/-- C3: for a focus request whose thick-lens radicand is negative the
source FocusThickLens takes the square root of a negative value and
returns the resulting NaN (modelled by the inner none) as its ordinary
film-distance result; the function has no error path at all, so no
fatal configuration error is reported.  Concrete failing input: cardinal
points pz = (0, 0), fz0 = 4 (focal length 4), rear thickness 1, focus
distance 4, whose second radicand is -12. -/
theorem focusThickLens_silent_nan : focusThickLensCore 0 0 4 1 4 = some none := by
  unfold focusThickLensCore
  norm_num

/-- C2 (amended): when both geometric bracket expansions exit within the
given fuel, FocusBinarySearch terminates with the midpoint of the final
bracket, and the bisection phase performs exactly 20 iterations, the
final bracket width being the initial width divided by 2^20.  (The
expansion loops themselves are not guaranteed to exit: see the
counterexample.) -/
theorem focusBinarySearch_bisect20 (F : ℚ → Option ℚ) (target seed : ℚ) (fuel : ℕ)
    (lo hi : ℚ) (hl : expandLower F target seed fuel = some lo)
    (hh : expandUpper F target seed fuel = some hi) :
    focusBinarySearchCore F target seed fuel =
      some ((((bisectStep F target)^[20] (lo, hi)).1 +
             ((bisectStep F target)^[20] (lo, hi)).2) / 2) ∧
    ((bisectStep F target)^[20] (lo, hi)).2 - ((bisectStep F target)^[20] (lo, hi)).1 =
      (hi - lo) / 2 ^ 20 := by
  constructor
  · unfold focusBinarySearchCore
    rw [hl, hh]
  · exact bisectStep_width F target 20 (lo, hi)

/-- Witness for the amended C2 theorem at a concrete oracle whose
expansions exit immediately. -/
theorem focusBinarySearch_bisect20_witness :
    focusBinarySearchCore (fun _ => some 10) 10 1 0 =
      some ((((bisectStep (fun _ => some 10) 10)^[20] (1, 1)).1 +
             ((bisectStep (fun _ => some 10) 10)^[20] (1, 1)).2) / 2) ∧
    ((bisectStep (fun _ => some 10) 10)^[20] (1, 1)).2 -
      ((bisectStep (fun _ => some 10) 10)^[20] (1, 1)).1 = (1 - 1) / 2 ^ 20 :=
  focusBinarySearch_bisect20 (fun _ => some 10) 10 1 0 1 1 (by decide) (by decide)

/-- C2 counterexample: with the FocusDistance oracle identically
Infinity (the value the source FocusDistance returns whenever its focus
test ray vignettes or crosses the axis behind the camera), the first
bracket-expansion loop of FocusBinarySearch never exits: the loop
condition FocusDistance(lower) > focusDistance holds at every iterate,
so the operation does not terminate under exact arithmetic. -/
theorem focusBinarySearch_expansion_diverges :
    ¬ expandLowerTerminates (fun _ => none) 10 1 := by
  intro hterm
  obtain ⟨n, hn⟩ := hterm
  have key : ∀ (m : ℕ) (x : ℚ), expandLower (fun _ => none) 10 x m = none := by
    intro m
    induction m with
    | zero => intro x; simp [expandLower, fdGT]
    | succ k ih =>
      intro x
      simpa [expandLower, fdGT] using ih (x * (201 / 200))
  rw [key n 1] at hn
  simp at hn

/-- C4 (amended): in TraceLensesFromFilm the incident index eta_i is the
index stored at the current surface used as is (in particular a stored 0
stays 0, with no substitution by 1), while the transmitted index eta_t
is the index of the previous surface, replaced by 1 when there is no
previous surface or its stored index is 0; eta_t is never 0, so the
ratio eta_i / eta_t used by the refraction step is well defined. -/
theorem etaFromFilm_selection (e : LensElementInterface) (rest : List LensElementInterface) :
    etaIncidentFromFilm e = e.eta ∧
    etaTransmittedFromFilm rest ≠ 0 ∧
    (rest = [] → etaTransmittedFromFilm rest = 1) ∧
    (∀ p tail, rest = p :: tail → p.eta = 0 → etaTransmittedFromFilm rest = 1) ∧
    (∀ p tail, rest = p :: tail → p.eta ≠ 0 → etaTransmittedFromFilm rest = p.eta) := by
  refine ⟨rfl, ?_, ?_, ?_, ?_⟩
  · cases rest with
    | nil => simp [etaTransmittedFromFilm]
    | cons p tail =>
      by_cases hp : p.eta = 0
      · simp [etaTransmittedFromFilm, hp]
      · simp [etaTransmittedFromFilm, hp]
  · intro h
    subst h
    rfl
  · intro p tail h hp
    subst h
    simp [etaTransmittedFromFilm, hp]
  · intro p tail h hp
    subst h
    simp [etaTransmittedFromFilm, hp]

/-- Witness for the amended C4 theorem: a surface with stored index 0
keeps eta_i = 0, and a nonzero previous surface supplies eta_t. -/
theorem etaFromFilm_selection_witness :
    etaIncidentFromFilm ⟨1, 1, 0, 5⟩ = 0 ∧
    etaTransmittedFromFilm [⟨1, 1, 3/2, 5⟩] = 3/2 := by
  have h := etaFromFilm_selection ⟨1, 1, 0, 5⟩ [⟨1, 1, 3/2, 5⟩]
  exact ⟨by rw [h.1], h.2.2.2.2 ⟨1, 1, 3/2, 5⟩ [] rfl (by norm_num)⟩

/-- C4 counterexample: at a refracting surface whose stored index is 0,
the source uses eta_i = 0 (line 133), not the value 1 that the claimed
0-to-1 substitution would give. -/
theorem etaIncident_no_zero_substitution :
    etaIncidentFromFilm ⟨1, 1, 0, 5⟩ = 0 ∧ etaIncidentClaimC4 ⟨1, 1, 0, 5⟩ = 1 ∧
    etaIncidentFromFilm ⟨1, 1, 0, 5⟩ ≠ etaIncidentClaimC4 ⟨1, 1, 0, 5⟩ := by decide

/-- C10: the aperture-stop intersection parameter used by both traces is
t = -(o.z - elementZ) / d.z, so under the precondition d.z ≠ 0 the hit
point lies exactly on the stop plane z = elementZ; with d.z = 0 the
division has no finite meaning and both TraceLensesFromScene and
TraceLensesFromFilm are undefined at a stop surface (the source performs
the division unguarded, which in C++ yields Infinity/NaN). -/
theorem stop_surface_division (oz elementZ dz : ℚ) (e : LensElementInterface)
    (rest pre : List LensElementInterface) (r : Ray) (hstop : e.curvatureRadius = 0) :
    (dz ≠ 0 → oz + stopIntersectT oz elementZ dz * dz = elementZ) ∧
    (r.d.z = 0 → traceLensesFromScene (e :: rest) r = .undef) ∧
    (r.d.z = 0 → traceLensesFromFilm (pre ++ [e]) r = .undef) := by
  refine ⟨?_, ?_, ?_⟩
  · intro hdz
    unfold stopIntersectT
    field_simp
  · intro hz
    unfold traceLensesFromScene
    rw [traceFromSceneAux]
    simp [cameraToLens, hstop, hz]
  · intro hz
    unfold traceLensesFromFilm
    rw [List.reverse_append, List.reverse_singleton, List.singleton_append]
    rw [traceFromFilmAux]
    simp [cameraToLens, hstop, hz]

/-- Witness for C10 at a concrete stop surface and a concrete ray with
zero z-direction. -/
theorem stop_surface_division_witness :
    ((5 : ℚ) + stopIntersectT 5 2 1 * 1 = 2) ∧
    traceLensesFromScene [⟨0, 0, 0, 0⟩] ⟨⟨0, 0, 0⟩, ⟨1, 0, 0⟩⟩ = .undef ∧
    traceLensesFromFilm [⟨0, 0, 0, 0⟩] ⟨⟨0, 0, 0⟩, ⟨1, 0, 0⟩⟩ = .undef := by
  have h := stop_surface_division 5 2 1 ⟨0, 0, 0, 0⟩ [] [] ⟨⟨0, 0, 0⟩, ⟨1, 0, 0⟩⟩ rfl
  exact ⟨h.1 (by norm_num), h.2.1 rfl, h.2.2 rfl⟩

end RC

namespace RC

/-- Completeness of the exact rational square root at rational squares:
the nonnegative rational root is found. -/
theorem ratSqrt_eval (q s : ℚ) (hs : 0 ≤ s) (h : s * s = q) : ratSqrt q = some s := by
  have hq : 0 ≤ q := h ▸ mul_self_nonneg s
  have hnum : q.num = s.num * s.num := by rw [← h, Rat.mul_self_num]
  have hden : q.den = s.den * s.den := by rw [← h, Rat.mul_self_den]
  have hsnum : 0 ≤ s.num := Rat.num_nonneg.mpr hs
  obtain ⟨m, hm⟩ := Int.eq_ofNat_of_zero_le hsnum
  have htn : q.num.toNat = s.num.toNat * s.num.toNat := by
    rw [hnum, hm, ← Int.natCast_mul, Int.toNat_natCast, Int.toNat_natCast]
  unfold ratSqrt
  rw [if_pos hq]
  have hc1 : Nat.sqrt q.num.toNat = s.num.toNat := by rw [htn, Nat.sqrt_eq]
  have hc2 : Nat.sqrt q.den = s.den := by rw [hden, Nat.sqrt_eq]
  rw [hc1, hc2, if_pos ⟨htn.symm, hden.symm⟩]
  congr 1
  have hcast : ((s.num.toNat : ℚ)) = ((s.num : ℤ) : ℚ) := by
    rw [hm]
    simp
  rw [hcast, Rat.num_div_den]

/-- Unfolding lemma: the spec-modelled Quadratic misses on a
nonpositive discriminant. -/
theorem quadratic_le_zero (A B C : ℚ) (h : B * B - 4 * A * C ≤ 0) :
    quadratic A B C = some none := by
  simp only [quadratic]
  rw [if_pos h]

/-- Unfolding lemma: the spec-modelled Quadratic returns the two real
roots on a positive discriminant with a rational square root. -/
theorem quadratic_pos (A B C s : ℚ) (h : ¬ B * B - 4 * A * C ≤ 0)
    (hs : ratSqrt (B * B - 4 * A * C) = some s) :
    quadratic A B C = some (some ((-B - s) / (2 * A), (-B + s) / (2 * A))) := by
  simp only [quadratic]
  rw [if_neg h, hs]

/-- C5: in IntersectSphericalElement a discriminant ≤ 0 is a miss; when
the quadratic has two real roots the selected parameter is the smaller
root exactly when (ray.d.z > 0) xor (radius < 0) and the larger root
otherwise; a negative selected parameter is rejected as a miss; and any
returned hit carries the selected nonnegative parameter together with a
normal face-forwarded away from the incoming direction
(dot n ray.d ≤ 0). -/
theorem intersect_root_selection (radius center s : ℚ) (ray : Ray) :
    (discOf radius center ray ≤ 0 →
      intersectSphericalElement radius center ray = .vignetted) ∧
    (ratSqrt (discOf radius center ray) = some s →
      (tSelOf radius center ray s < 0 →
        intersectSphericalElement radius center ray = .vignetted) ∧
      (∀ t n, intersectSphericalElement radius center ray = .hit (t, n) →
        t = tSelOf radius center ray s ∧ 0 ≤ t ∧ Vec3.dot n ray.d ≤ 0)) := by
  constructor
  · intro hle
    have h1 : quadratic (quadCoeffs radius center ray).1 (quadCoeffs radius center ray).2.1
        (quadCoeffs radius center ray).2.2 = some none := quadratic_le_zero _ _ _ hle
    simp only [intersectSphericalElement, h1]
  · intro hs
    by_cases hle : discOf radius center ray ≤ 0
    · have h1 : quadratic (quadCoeffs radius center ray).1 (quadCoeffs radius center ray).2.1
          (quadCoeffs radius center ray).2.2 = some none := quadratic_le_zero _ _ _ hle
      refine ⟨fun _ => by simp only [intersectSphericalElement, h1], fun t n hhit => ?_⟩
      simp only [intersectSphericalElement, h1] at hhit
      exact TraceResult.noConfusion hhit
    · have h2 : quadratic (quadCoeffs radius center ray).1 (quadCoeffs radius center ray).2.1
          (quadCoeffs radius center ray).2.2 =
          some (some ((-(quadCoeffs radius center ray).2.1 - s) /
              (2 * (quadCoeffs radius center ray).1),
            (-(quadCoeffs radius center ray).2.1 + s) /
              (2 * (quadCoeffs radius center ray).1))) :=
        quadratic_pos _ _ _ _ hle hs
      have hsel : (if Bool.xor (decide (0 < ray.d.z)) (decide (radius < 0)) then
          min ((-(quadCoeffs radius center ray).2.1 - s) / (2 * (quadCoeffs radius center ray).1))
            ((-(quadCoeffs radius center ray).2.1 + s) / (2 * (quadCoeffs radius center ray).1))
          else
          max ((-(quadCoeffs radius center ray).2.1 - s) / (2 * (quadCoeffs radius center ray).1))
            ((-(quadCoeffs radius center ray).2.1 + s) / (2 * (quadCoeffs radius center ray).1)))
          = tSelOf radius center ray s := rfl
      constructor
      · intro hneg
        simp only [intersectSphericalElement, h2]
        rw [hsel, if_pos hneg]
      · intro t n hhit
        simp only [intersectSphericalElement, h2] at hhit
        rw [hsel] at hhit
        by_cases hneg : tSelOf radius center ray s < 0
        · rw [if_pos hneg] at hhit
          cases hhit
        · rw [if_neg hneg] at hhit
          cases hnm : Vec3.normalize (Vec3.add (Vec3.sub ray.o ⟨0, 0, center⟩)
              (Vec3.smul (tSelOf radius center ray s) ray.d)) with
          | none =>
            rw [hnm] at hhit
            cases hhit
          | some nh =>
            rw [hnm] at hhit
            simp only [TraceResult.hit.injEq, Prod.mk.injEq] at hhit
            obtain ⟨ht, hn⟩ := hhit
            refine ⟨ht.symm, ht ▸ not_lt.mp hneg, ?_⟩
            have hf := faceforward_dot nh (Vec3.neg ray.d)
            rw [dot_neg_right] at hf
            rw [← hn]
            linarith

/-- Witness for C5 at a concrete sphere and ray whose selected root is
the larger root and is negative, hence rejected as a miss. -/
theorem intersect_root_selection_witness :
    intersectSphericalElement 1 0 ⟨⟨0, 0, -2⟩, ⟨0, 0, -1⟩⟩ = .vignetted := by
  have hd : discOf 1 0 ⟨⟨0, 0, -2⟩, ⟨0, 0, -1⟩⟩ = 4 := by
    norm_num [discOf, quadCoeffs, Vec3.dot, Vec3.sub]
  have hs : ratSqrt (discOf 1 0 ⟨⟨0, 0, -2⟩, ⟨0, 0, -1⟩⟩) = some 2 := by
    rw [hd]
    exact ratSqrt_eval 4 2 (by norm_num) (by norm_num)
  have hneg : tSelOf 1 0 ⟨⟨0, 0, -2⟩, ⟨0, 0, -1⟩⟩ 2 < 0 := by
    norm_num [tSelOf, quadCoeffs, Vec3.dot, Vec3.sub]
  exact ((intersect_root_selection 1 0 2 ⟨⟨0, 0, -2⟩, ⟨0, 0, -1⟩⟩).2 hs).1 hneg

end RC

namespace RC

/-- Unfolding of the lower expansion loop at positive fuel. -/
theorem expandLower_succ (F : ℚ → Option ℚ) (target x : ℚ) (n : ℕ) :
    expandLower F target x (n + 1) =
      if fdGT (F x) target then expandLower F target (x * (201 / 200)) n else some x := rfl

/-- Unfolding of the upper expansion loop at positive fuel. -/
theorem expandUpper_succ (F : ℚ → Option ℚ) (target x : ℚ) (n : ℕ) :
    expandUpper F target x (n + 1) =
      if fdLT (F x) target then expandUpper F target (x / (201 / 200)) n else some x := rfl

/-- Unfolding of the upper expansion loop at zero fuel. -/
theorem expandUpper_zero (F : ℚ → Option ℚ) (target x : ℚ) :
    expandUpper F target x 0 = if fdLT (F x) target then none else some x := rfl

/-- The last-surface thickness after the one-time overwrite is the
written value. -/
theorem backThickness_update :
    ∀ (elems : List LensElementInterface) (v : ℚ), elems ≠ [] →
      backThickness (updateBackThickness elems v) = v
  | [], _, h => absurd rfl h
  | [e], v, _ => by simp [updateBackThickness, backThickness]
  | e :: e2 :: rest, v, _ => by
    have ih := backThickness_update (e2 :: rest) v (by simp)
    rw [updateBackThickness]
    obtain ⟨a, as, hx⟩ : ∃ a as, updateBackThickness (e2 :: rest) v = a :: as := by
      cases rest with
      | nil => exact ⟨_, _, rfl⟩
      | cons c cs => exact ⟨_, _, rfl⟩
    rw [hx]
    rw [hx] at ih
    rw [show backThickness (e :: a :: as) = backThickness (a :: as) from by
      simp [backThickness, List.getLast?_cons_cons]]
    exact ih

/-- C1 (amended): whenever the constructor focus step succeeds, the
value written over the last surface thickness is the thick-lens solution
FocusThickLens(focusDistance); the bisection-refined film distance of
FocusBinarySearch is computed (seeded with the same thick-lens value)
but only logged, and is returned here as the separate component fb. -/
theorem cameraFocus_uses_thickLens (F : ℚ → Option ℚ) (pz0 pz1 fz0 focusDist : ℚ)
    (elems : List LensElementInterface) (fuel : ℕ) (es : List LensElementInterface) (fb : ℚ)
    (h : cameraFocusStep F pz0 pz1 fz0 elems focusDist fuel = some (es, fb)) :
    ∃ v, focusThickLensCore pz0 pz1 fz0 (backThickness elems) focusDist = some (some v) ∧
      es = updateBackThickness elems v ∧ backThickness es = v ∧
      focusBinarySearchCore F focusDist v fuel = some fb := by
  unfold cameraFocusStep at h
  by_cases he : elems.isEmpty
  · rw [if_pos he] at h
    cases h
  · rw [if_neg he] at h
    have hne : elems ≠ [] := by
      intro hnil
      exact he (by simp [hnil])
    split at h
    next v htl =>
      split at h
      next fb2 hbs =>
        injection h with h
        injection h with ha hb
        refine ⟨v, htl, ha.symm, ?_, ?_⟩
        · rw [← ha]
          exact backThickness_update elems v hne
        · rw [hbs, hb]
      next hbs => cases h
    next x hx => cases h

end RC

namespace RC

/-- Closed form of the bisection iterates for the C1 oracle: every probed
midpoint lies below 6, where the oracle answers 26, so the upper end
creeps toward the lower end 6, halving the gap each step. -/
theorem bisect_c1_closed_form :
    ∀ (n : ℕ) (h : ℚ), h < 6 →
      (bisectStep (fun x => if x < (6 : ℚ) then some 26 else some 24) 25)^[n] (6, h) =
        (6, 6 - (6 - h) / 2 ^ n) := by
  intro n
  induction n with
  | zero =>
    intro h hh
    simp
  | succ k ih =>
    intro h hh
    rw [Function.iterate_succ_apply]
    have hstep : bisectStep (fun x => if x < (6 : ℚ) then some 26 else some 24) 25 (6, h) =
        (6, (6 + h) / 2) := by
      unfold bisectStep
      simp only []
      rw [if_pos (by linarith : (6 + h) / 2 < (6 : ℚ))]
      norm_num [fdLT]
    rw [hstep, ih ((6 + h) / 2) (by linarith)]
    simp only [Prod.mk.injEq, true_and]
    have h2k : ((2 : ℚ)) ^ k ≠ 0 := by positivity
    field_simp
    ring

/-- Evaluation of the thick-lens core at the C1 instance: the film
distance written by the constructor is 6. -/
theorem focusThickLens_c1_eval : focusThickLensCore 0 0 4 1 25 = some (some 6) := by
  have h1 : ratSqrt ((0 : ℚ) - -25 - 0) = some 5 := by
    rw [show (0 : ℚ) - -25 - 0 = 25 by norm_num]
    exact ratSqrt_eval 25 5 (by norm_num) (by norm_num)
  have h2 : ratSqrt ((0 : ℚ) - -25 - 4 * (4 - 0) - 0) = some 3 := by
    rw [show (0 : ℚ) - -25 - 4 * (4 - 0) - 0 = 9 by norm_num]
    exact ratSqrt_eval 9 3 (by norm_num) (by norm_num)
  simp only [focusThickLensCore]
  rw [if_neg (by norm_num), h1, h2]
  norm_num

/-- General evaluation form of the binary search core once both
expansions are known. -/
theorem focusBinarySearchCore_eval (F : ℚ → Option ℚ) (target seed : ℚ) (fuel : ℕ)
    (lo hi : ℚ) (hl : expandLower F target seed fuel = some lo)
    (hh : expandUpper F target seed fuel = some hi) :
    focusBinarySearchCore F target seed fuel =
      some ((((bisectStep F target)^[20] (lo, hi)).1 +
             ((bisectStep F target)^[20] (lo, hi)).2) / 2) := by
  unfold focusBinarySearchCore
  rw [hl, hh]

/-- Evaluation of the binary search core at the C1 instance: the
bracket expansion stops at (6, 1200/201) and 20 bisection steps give a
value strictly below the thick-lens solution 6. -/
theorem focusBinarySearch_c1_eval :
    focusBinarySearchCore (fun x => if x < (6 : ℚ) then some 26 else some 24) 25 6 1 =
      some (421527551 / 70254592) := by
  have hlo : expandLower (fun x => if x < (6 : ℚ) then some 26 else some 24) 25 6 1 =
      some 6 := by
    show expandLower _ 25 6 (0 + 1) = _
    rw [expandLower_succ]
    rw [if_neg (show ¬(6 : ℚ) < 6 by norm_num)]
    norm_num [fdGT]
  have hup : expandUpper (fun x => if x < (6 : ℚ) then some 26 else some 24) 25 6 1 =
      some (1200 / 201) := by
    show expandUpper _ 25 6 (0 + 1) = _
    rw [expandUpper_succ]
    rw [if_neg (show ¬(6 : ℚ) < 6 by norm_num)]
    rw [show fdLT (some (24 : ℚ)) 25 = true from by norm_num [fdLT]]
    rw [if_pos rfl, expandUpper_zero]
    rw [if_pos (show (6 : ℚ) / (201 / 200) < 6 by norm_num)]
    norm_num [fdLT]
  rw [focusBinarySearchCore_eval (fun x => if x < (6 : ℚ) then some 26 else some 24) 25 6 1 6
    (1200 / 201) hlo hup]
  rw [bisect_c1_closed_form 20 (1200 / 201) (by norm_num)]
  norm_num

/-- C1 counterexample: at a concrete prescription, oracle, cardinal
points and focus request, the constructor focus step writes the
thick-lens value 6 over the last surface thickness, while the binary
search that it also runs (and merely logs) returns 421527551/70254592,
which differs from 6: the separation applied to the assembly is not the
bisection-refined film distance. -/
theorem cameraFocus_overwrite_ne_bisection :
    cameraFocusStep (fun x => if x < (6 : ℚ) then some 26 else some 24) 0 0 4
        [⟨0, 1, 0, 1⟩] 25 1 =
      some ([⟨0, 6, 0, 1⟩], 421527551 / 70254592) ∧
    ((421527551 : ℚ) / 70254592 ≠ 6) := by
  constructor
  · unfold cameraFocusStep
    rw [if_neg (by norm_num)]
    rw [show backThickness [(⟨0, 1, 0, 1⟩ : LensElementInterface)] = 1 from rfl]
    rw [focusThickLens_c1_eval]
    simp only []
    rw [focusBinarySearch_c1_eval]
    rfl
  · norm_num

/-- Witness for the amended C1 theorem at the counterexample instance. -/
theorem cameraFocus_uses_thickLens_witness :
    ∃ v, focusThickLensCore 0 0 4 (backThickness [⟨0, 1, 0, 1⟩]) 25 = some (some v) ∧
      ([(⟨0, 6, 0, 1⟩ : LensElementInterface)] = updateBackThickness [⟨0, 1, 0, 1⟩] v) ∧
      backThickness [(⟨0, 6, 0, 1⟩ : LensElementInterface)] = v ∧
      focusBinarySearchCore (fun x => if x < (6 : ℚ) then some 26 else some 24) 25 v 1 =
        some (421527551 / 70254592) :=
  cameraFocus_uses_thickLens (fun x => if x < (6 : ℚ) then some 26 else some 24) 0 0 4 25
    [⟨0, 1, 0, 1⟩] 1 [⟨0, 6, 0, 1⟩] (421527551 / 70254592)
    (by
      unfold cameraFocusStep
      rw [if_neg (by norm_num)]
      rw [show backThickness [(⟨0, 1, 0, 1⟩ : LensElementInterface)] = 1 from rfl]
      rw [focusThickLens_c1_eval]
      simp only []
      rw [focusBinarySearch_c1_eval]
      rfl)

end RC

namespace RC

/-- C9: whenever the film-to-rear-surface ray built by GenerateRay is
vignetted by the lens system (TraceLensesFromFilm fails), GenerateRay
returns weight exactly 0, counts the sample as a vignetted ray, and
produces no output ray. -/
theorem generateRay_vignetted_zero (film : FilmParams) (epb : List Bounds2)
    (elems : List LensElementInterface) (simpleWeighting : Bool) (sample : CameraSample)
    (pr : ℚ × ℚ)
    (hs : sampleExitPupil epb film.diagonal
        ((filmPoint film sample).x, (filmPoint film sample).y)
        (sample.pLensU, sample.pLensV) = some pr)
    (hv : traceLensesFromFilm elems (rearRayFromSample elems (filmPoint film sample) pr) =
        .vignetted) :
    generateRay film epb elems simpleWeighting sample = some ⟨0, true, none⟩ := by
  unfold generateRay
  rw [hs]
  simp only []
  rw [hv]

/-- Witness for C9: a concrete sample against a two-stop prescription
whose scene-side stop has zero aperture; the built ray is vignetted and
the generated weight is 0 with the vignetting event counted. -/
theorem generateRay_vignetted_zero_witness :
    generateRay ⟨2, 2, 6, 8, 10⟩ [⟨(0, 0), (0, 0)⟩] [⟨0, 1, 0, 0⟩, ⟨0, 1, 0, 0⟩] true
        ⟨0, 0, 1/2, 1/2⟩ = some ⟨0, true, none⟩ := by
  have h25 : ratSqrt 25 = some 5 := ratSqrt_eval 25 5 (by norm_num) (by norm_num)
  refine generateRay_vignetted_zero ⟨2, 2, 6, 8, 10⟩ [⟨(0, 0), (0, 0)⟩]
    [⟨0, 1, 0, 0⟩, ⟨0, 1, 0, 0⟩] true ⟨0, 0, 1/2, 1/2⟩ (0, 0) ?_ ?_
  · norm_num [sampleExitPupil, pupilBoundsFor, pupilUnionAt, filmPoint, Bounds2.lerp2, lerp,
      h25, List.getD, Prod.fst_zero, Prod.snd_zero]
  · norm_num [rearRayFromSample, filmPoint, lensRearZ, traceLensesFromFilm, traceFromFilmAux,
      cameraToLens, stopIntersectT, rayAt, Vec3.sub, Vec3.add, Vec3.smul]

end RC


namespace RC

/-- The union of two nondegenerate rectangles is nondegenerate. -/
theorem union_wf (a b : Bounds2) (ha : a.pMin.1 < a.pMax.1 ∧ a.pMin.2 < a.pMax.2)
    (_hb : b.pMin.1 < b.pMax.1 ∧ b.pMin.2 < b.pMax.2) :
    (a.union b).pMin.1 < (a.union b).pMax.1 ∧ (a.union b).pMin.2 < (a.union b).pMax.2 := by
  unfold Bounds2.union
  exact ⟨lt_of_le_of_lt (min_le_left _ _) (lt_of_lt_of_le ha.1 (le_max_left _ _)),
    lt_of_le_of_lt (min_le_left _ _) (lt_of_lt_of_le ha.2 (le_max_left _ _))⟩

/-- The bucket lookup at an in-range index is nondegenerate when every
stored bucket rectangle is. -/
theorem pupilUnionAt_wf (epb : List Bounds2) (idx : ℕ) (hidx : idx < epb.length)
    (hwf : ∀ b ∈ epb, b.pMin.1 < b.pMax.1 ∧ b.pMin.2 < b.pMax.2) :
    (pupilUnionAt epb idx).pMin.1 < (pupilUnionAt epb idx).pMax.1 ∧
    (pupilUnionAt epb idx).pMin.2 < (pupilUnionAt epb idx).pMax.2 := by
  unfold pupilUnionAt
  by_cases h : idx + 1 < epb.length
  · rw [if_pos h]
    refine union_wf _ _ ?_ ?_
    · rw [List.getD_eq_getElem _ _ hidx]
      exact hwf _ (List.getElem_mem hidx)
    · rw [List.getD_eq_getElem _ _ h]
      exact hwf _ (List.getElem_mem h)
  · rw [if_neg h]
    rw [List.getD_eq_getElem _ _ hidx]
    exact hwf _ (List.getElem_mem hidx)

/-- The bucket-union rectangle used by SampleExitPupil and ExitPupilPdf
is nondegenerate for a nonempty well-formed bucket array. -/
theorem pupilBoundsFor_wf (epb : List Bounds2) (rF diagonal : ℚ) (hne : epb ≠ [])
    (hwf : ∀ b ∈ epb, b.pMin.1 < b.pMax.1 ∧ b.pMin.2 < b.pMax.2) :
    (pupilBoundsFor epb rF diagonal).pMin.1 < (pupilBoundsFor epb rF diagonal).pMax.1 ∧
    (pupilBoundsFor epb rF diagonal).pMin.2 < (pupilBoundsFor epb rF diagonal).pMax.2 := by
  unfold pupilBoundsFor
  exact pupilUnionAt_wf epb _
    (lt_of_le_of_lt (min_le_left _ _) (Nat.sub_lt (List.length_pos.mpr hne) one_pos)) hwf

/-- C7: for any image point whose film radius is rationally
representable, any lens sample uv in the unit square and any nonempty
array of nondegenerate pupil-bound buckets, the rear point produced by
SampleExitPupil receives from ExitPupilPdf (at the same image point) the
density 1 / area of the shared bucket-union rectangle; this density is
strictly positive, and multiplied by the rectangle area it gives 1, so
the constant density integrates to 1 over that rectangle. -/
theorem samplePdf_consistency (epb : List Bounds2) (diagonal : ℚ) (pFilm uv p : ℚ × ℚ)
    (rF : ℚ) (hne : epb ≠ [])
    (hwf : ∀ b ∈ epb, b.pMin.1 < b.pMax.1 ∧ b.pMin.2 < b.pMax.2)
    (hu0 : 0 ≤ uv.1) (hu1 : uv.1 ≤ 1) (hv0 : 0 ≤ uv.2) (hv1 : uv.2 ≤ 1)
    (hr : ratSqrt (pFilm.1 * pFilm.1 + pFilm.2 * pFilm.2) = some rF)
    (hs : sampleExitPupil epb diagonal pFilm uv = some p) :
    exitPupilPdf epb diagonal pFilm p = some (1 / (pupilBoundsFor epb rF diagonal).area) ∧
    0 < 1 / (pupilBoundsFor epb rF diagonal).area ∧
    1 / (pupilBoundsFor epb rF diagonal).area * (pupilBoundsFor epb rF diagonal).area = 1 := by
  obtain ⟨hrF0, hrF2⟩ := ratSqrt_sound _ _ hr
  have hwfpb := pupilBoundsFor_wf epb rF diagonal hne hwf
  have harea : 0 < (pupilBoundsFor epb rF diagonal).area :=
    mul_pos (by linarith [hwfpb.1]) (by linarith [hwfpb.2])
  unfold sampleExitPupil at hs
  rw [hr] at hs
  simp only [] at hs
  injection hs with hs
  have hins : Bounds2.inside ((pupilBoundsFor epb rF diagonal).lerp2 uv)
      (pupilBoundsFor epb rF diagonal) := by
    unfold Bounds2.inside Bounds2.lerp2
    obtain ⟨l1a, l1b⟩ := lerp_bounds uv.1 (pupilBoundsFor epb rF diagonal).pMin.1
      (pupilBoundsFor epb rF diagonal).pMax.1 hu0 hu1 (le_of_lt hwfpb.1)
    obtain ⟨l2a, l2b⟩ := lerp_bounds uv.2 (pupilBoundsFor epb rF diagonal).pMin.2
      (pupilBoundsFor epb rF diagonal).pMax.2 hv0 hv1 (le_of_lt hwfpb.2)
    exact ⟨l1a, l1b, l2a, l2b⟩
  have hrot : ((if rF = 0 then (1 : ℚ) else pFilm.1 / rF) * p.1 -
        (if rF = 0 then (0 : ℚ) else -pFilm.2 / rF) * p.2,
      (if rF = 0 then (0 : ℚ) else -pFilm.2 / rF) * p.1 +
        (if rF = 0 then (1 : ℚ) else pFilm.1 / rF) * p.2) =
      (pupilBoundsFor epb rF diagonal).lerp2 uv := by
    rw [← hs]
    by_cases hrz : rF = 0
    · simp only [if_pos hrz]
      rw [Prod.mk.injEq]
      constructor <;> ring
    · simp only [if_neg hrz]
      have hcs : pFilm.1 / rF * (pFilm.1 / rF) + pFilm.2 / rF * (pFilm.2 / rF) = 1 := by
        field_simp
        linarith [hrF2]
      rw [Prod.mk.injEq]
      constructor
      · linear_combination ((pupilBoundsFor epb rF diagonal).lerp2 uv).1 * hcs
      · linear_combination ((pupilBoundsFor epb rF diagonal).lerp2 uv).2 * hcs
  unfold exitPupilPdf
  rw [hr]
  simp only []
  rw [hrot, if_pos hins]
  exact ⟨rfl, one_div_pos.mpr harea, one_div_mul_cancel (ne_of_gt harea)⟩

/-- Witness for C7 at a concrete two-bucket array, film point (3, 4)
(film radius 5) and lens sample (1/2, 1/3): the sampled rear point gets
density 1/8, the reciprocal of the bucket-union area. -/
theorem samplePdf_consistency_witness :
    exitPupilPdf [⟨(-1, -1), (1, 1)⟩, ⟨(-2, -1), (2, 1)⟩] 10 (3, 4) (4/15, -1/5) =
      some (1 / (pupilBoundsFor [⟨(-1, -1), (1, 1)⟩, ⟨(-2, -1), (2, 1)⟩] 5 10).area) ∧
    0 < 1 / (pupilBoundsFor [⟨(-1, -1), (1, 1)⟩, ⟨(-2, -1), (2, 1)⟩] 5 10).area ∧
    1 / (pupilBoundsFor [⟨(-1, -1), (1, 1)⟩, ⟨(-2, -1), (2, 1)⟩] 5 10).area *
      (pupilBoundsFor [⟨(-1, -1), (1, 1)⟩, ⟨(-2, -1), (2, 1)⟩] 5 10).area = 1 := by
  have h25 : ratSqrt 25 = some 5 := ratSqrt_eval 25 5 (by norm_num) (by norm_num)
  refine samplePdf_consistency [⟨(-1, -1), (1, 1)⟩, ⟨(-2, -1), (2, 1)⟩] 10 (3, 4) (1/2, 1/3)
    (4/15, -1/5) 5 (by simp) ?_ (by norm_num) (by norm_num) (by norm_num) (by norm_num) ?_ ?_
  · intro b hb
    simp only [List.mem_cons, List.mem_singleton] at hb
    rcases hb with h | h | h
    · subst h; norm_num
    · subst h; norm_num
    · cases h
  · norm_num [h25]
  · norm_num [sampleExitPupil, pupilBoundsFor, pupilUnionAt, Bounds2.lerp2, lerp, h25,
      List.getD, Bounds2.union]

end RC

namespace RC

/-- Unfolding lemma: with at least one exiting candidate, BoundExitPupil
returns the bounding rectangle of the exiting points expanded by
2 * rearRadius / nSamples on each side (source line 551). -/
theorem boundExitPupil_eq_expand (elems : List LensElementInterface) (pFilm p : ℚ × ℚ)
    (ps : List (ℚ × ℚ)) (h : exitingPupilPoints elems pFilm = p :: ps) :
    boundExitPupil elems pFilm =
      expand2 (bboxOfPoints p ps) (2 * rearElementRadius elems / (pupilSampleCount : ℚ)) := by
  unfold boundExitPupil
  rw [h]

/-- Unfolding lemma for the claim-worded variant, stated at a symbolic
element list so the grid scrutinee is never evaluated. -/
theorem claimedBoundExitPupil_eq_expand (elems : List LensElementInterface)
    (pFilm p : ℚ × ℚ) (ps : List (ℚ × ℚ))
    (h : exitingPupilPoints elems pFilm = p :: ps) :
    claimedBoundExitPupil elems pFilm =
      expand2 (bboxOfPoints p ps)
        ((1/2) * (2 * (6/5) * rearElementRadius elems / (pupilSampleCount : ℚ))) := by
  unfold claimedBoundExitPupil
  rw [h]

/-- Unfolding lemma: with no exiting candidate, BoundExitPupil returns
the full rear-element square (source lines 544-548). -/
theorem boundExitPupil_eq_fallback (elems : List LensElementInterface) (pFilm : ℚ × ℚ)
    (h : exitingPupilPoints elems pFilm = []) :
    boundExitPupil elems pFilm =
      ⟨(-(rearElementRadius elems), -(rearElementRadius elems)),
       (rearElementRadius elems, rearElementRadius elems)⟩ := by
  unfold boundExitPupil
  rw [h]

/-- The central grid candidate (511, 511) of the one-stop prescription
exits the lens system: its trace is a fully rational stop-plane pass. -/
theorem exitsPupil_c6_eval :
    exitsPupil elemsC6 ⟨0, 0, 0⟩ (pupilCandidate 1 1 511 511) = true := by
  have hc : pupilCandidate 1 1 511 511 = ⟨-3/2560, -3/2560, 1⟩ := by
    unfold pupilCandidate pupilSampleCount lerp
    norm_num
  unfold exitsPupil
  rw [hc]
  rw [show Vec3.sub ⟨-3/2560, -3/2560, 1⟩ ⟨0, 0, 0⟩ = ⟨-3/2560, -3/2560, 1⟩ from by
    norm_num [Vec3.sub]]
  unfold traceLensesFromFilm
  rw [show cameraToLens ⟨⟨0, 0, 0⟩, ⟨-3/2560, -3/2560, 1⟩⟩ =
      ⟨⟨0, 0, 0⟩, ⟨-3/2560, -3/2560, -1⟩⟩ from by norm_num [cameraToLens]]
  rw [show elemsC6.reverse = [⟨0, 1, 0, 1⟩] from rfl]
  rw [traceFromFilmAux]
  rw [if_pos rfl]
  dsimp only
  rw [if_neg (show ¬(-1 : ℚ) = 0 by norm_num)]
  rw [show stopIntersectT (0 : ℚ) (0 - 1) (-1) = 1 from by norm_num [stopIntersectT]]
  rw [show rayAt ⟨⟨0, 0, 0⟩, ⟨-3/2560, -3/2560, -1⟩⟩ 1 = ⟨-3/2560, -3/2560, -1⟩ from by
    norm_num [rayAt, Vec3.add, Vec3.smul]]
  dsimp only
  rw [if_neg (show ¬(-3/2560 : ℚ) * (-3/2560) + (-3/2560) * (-3/2560) > 1 * 1 from by norm_num)]
  rw [traceFromFilmAux]

/-- At the film center the one-stop prescription has at least one
exiting grid candidate. -/
theorem exitingC6_ne_nil : exitingPupilPoints elemsC6 (0, 0) ≠ [] := by
  have hmem : pupilCandidate 1 1 511 511 ∈
      pupilCandidates (rearElementRadius elemsC6) (lensRearZ elemsC6) := by
    rw [show rearElementRadius elemsC6 = 1 from rfl, show lensRearZ elemsC6 = 1 from rfl]
    unfold pupilCandidates
    refine List.mem_flatMap.mpr ⟨511, List.mem_range.mpr (by norm_num [pupilSampleCount]), ?_⟩
    exact List.mem_map.mpr ⟨511, List.mem_range.mpr (by norm_num [pupilSampleCount]), rfl⟩
  intro hnil
  unfold exitingPupilPoints at hnil
  rw [List.map_eq_nil_iff] at hnil
  have hf : pupilCandidate 1 1 511 511 ∈
      (pupilCandidates (rearElementRadius elemsC6) (lensRearZ elemsC6)).filter
        (fun pRear => exitsPupil elemsC6 ⟨(0 : ℚ), (0 : ℚ), 0⟩ pRear) := by
    refine List.mem_filter.mpr ⟨hmem, ?_⟩
    exact exitsPupil_c6_eval
  rw [hnil] at hf
  cases hf

/-- C6 (amended): when at least one grid candidate exits the lens
system, BoundExitPupil returns the axis-aligned bounding rectangle of
the exiting candidate points expanded by exactly
2 * rearRadius / nSamples on each axis, which is five sixths of a grid
cell of the 2.4 * rearRadius wide sampling square, not one half. -/
theorem boundExitPupil_expand (elems : List LensElementInterface) (pFilm p : ℚ × ℚ)
    (ps : List (ℚ × ℚ)) (h : exitingPupilPoints elems pFilm = p :: ps) :
    boundExitPupil elems pFilm =
      expand2 (bboxOfPoints p ps) (2 * rearElementRadius elems / (pupilSampleCount : ℚ)) :=
  boundExitPupil_eq_expand elems pFilm p ps h

/-- Witness for the amended C6 theorem at the one-stop prescription and
the film center, where the exiting set is nonempty. -/
theorem boundExitPupil_expand_witness :
    ∃ p ps, exitingPupilPoints elemsC6 (0, 0) = p :: ps ∧
      boundExitPupil elemsC6 (0, 0) =
        expand2 (bboxOfPoints p ps) (2 * rearElementRadius elemsC6 / (pupilSampleCount : ℚ)) := by
  obtain ⟨p, ps, hcons⟩ := List.exists_cons_of_ne_nil exitingC6_ne_nil
  exact ⟨p, ps, hcons, boundExitPupil_expand elemsC6 (0, 0) p ps hcons⟩

/-- C6 counterexample: at the one-stop prescription (rear radius 1) and
the film center, the rectangle built following the claim wording
(bounding rectangle expanded by one half grid-cell width, 1.2/1024)
differs from the one the source returns (expanded by 2/1024): the claim
is false whatever the bounding rectangle of the exiting points is. -/
theorem boundExitPupil_not_half_cell :
    claimedBoundExitPupil elemsC6 (0, 0) ≠ boundExitPupil elemsC6 (0, 0) := by
  obtain ⟨p, ps, hcons⟩ := List.exists_cons_of_ne_nil exitingC6_ne_nil
  rw [claimedBoundExitPupil_eq_expand elemsC6 (0, 0) p ps hcons,
    boundExitPupil_eq_expand elemsC6 (0, 0) p ps hcons]
  intro he
  have h1 := congrArg (fun bb => bb.pMin.1) he
  simp only [expand2] at h1
  rw [show rearElementRadius elemsC6 = 1 from rfl] at h1
  norm_num [pupilSampleCount] at h1

/-- Every grid candidate from film point (1, 0) against the two-stop
prescription with zero front aperture is vignetted: the candidate x
coordinate never equals 1/2, which the hit point at the zero-aperture
stop would require. -/
theorem cx_ne_half (x : ℕ) :
    lerp (((x : ℚ) + 1/2) / (pupilSampleCount : ℚ)) (-(6/5) * 1) ((6/5) * 1) ≠ 1/2 := by
  unfold lerp pupilSampleCount
  intro h
  have hx : (24 : ℚ) * (x : ℚ) = 17396 := by
    field_simp at h
    linarith
  have hx2 : (24 : ℕ) * x = 17396 := by exact_mod_cast hx
  omega

/-- Symbolic trace of a film ray from (1, 0, 0) toward rear point
(a, b, 1) through the two-stop prescription: unless a = 1/2 and b = 0
simultaneously, the ray is blocked at the zero-aperture front stop (or
already at the rear aperture), so for a ≠ 1/2 the trace vignettes. -/
theorem traceC8_vignettes (a b : ℚ) (ha : a ≠ 1/2) :
    traceLensesFromFilm elemsC8 ⟨⟨1, 0, 0⟩, ⟨a - 1, b, 1⟩⟩ = .vignetted := by
  unfold traceLensesFromFilm
  rw [show cameraToLens ⟨⟨1, 0, 0⟩, ⟨a - 1, b, 1⟩⟩ = ⟨⟨1, 0, 0⟩, ⟨a - 1, b, -1⟩⟩ from by
    norm_num [cameraToLens]]
  rw [show elemsC8.reverse = [⟨0, 1, 0, 1⟩, ⟨0, 1, 0, 0⟩] from rfl]
  rw [traceFromFilmAux]
  rw [if_pos rfl]
  dsimp only
  rw [if_neg (show ¬(-1 : ℚ) = 0 by norm_num)]
  rw [show stopIntersectT (0 : ℚ) (0 - 1) (-1) = 1 from by norm_num [stopIntersectT]]
  rw [show rayAt ⟨⟨1, 0, 0⟩, ⟨a - 1, b, -1⟩⟩ 1 = ⟨a, b, -1⟩ from by
    simp only [rayAt, Vec3.add, Vec3.smul, Vec3.mk.injEq]
    refine ⟨by ring, by ring, by ring⟩]
  dsimp only
  by_cases hab : a * a + b * b > 1 * 1
  · rw [if_pos hab]
  · rw [if_neg hab]
    rw [traceFromFilmAux]
    rw [if_pos rfl]
    dsimp only
    rw [if_neg (show ¬(-1 : ℚ) = 0 by norm_num)]
    rw [show stopIntersectT (-1 : ℚ) (0 - 1 - 1) (-1) = 1 from by norm_num [stopIntersectT]]
    rw [show rayAt ⟨⟨a, b, -1⟩, ⟨a - 1, b, -1⟩⟩ 1 = ⟨2 * a - 1, 2 * b, -2⟩ from by
      simp only [rayAt, Vec3.add, Vec3.smul, Vec3.mk.injEq]
      refine ⟨by ring, by ring, by ring⟩]
    dsimp only
    rw [if_pos (show (2 * a - 1) * (2 * a - 1) + (2 * b) * (2 * b) > 0 * 0 from by
      have h1 : 2 * a - 1 ≠ 0 := by intro hc; apply ha; linarith
      nlinarith [mul_self_pos.mpr h1, mul_self_nonneg (2 * b)])]

/-- From film point (1, 0) no grid candidate of the two-stop
prescription exits the lens system. -/
theorem exitingC8_nil : exitingPupilPoints elemsC8 (1, 0) = [] := by
  unfold exitingPupilPoints
  rw [List.filter_eq_nil_iff.mpr, List.map_nil]
  intro q hq
  rw [show rearElementRadius elemsC8 = 1 from rfl, show lensRearZ elemsC8 = 1 from rfl] at hq
  unfold pupilCandidates at hq
  obtain ⟨y, hy, hq2⟩ := List.mem_flatMap.mp hq
  obtain ⟨x, hx, rfl⟩ := List.mem_map.mp hq2
  simp only []
  have hvig := traceC8_vignettes
    (lerp (((x : ℚ) + 1/2) / (pupilSampleCount : ℚ)) (-(6/5) * 1) ((6/5) * 1))
    (lerp (((y : ℚ) + 1/2) / (pupilSampleCount : ℚ)) (-(6/5) * 1) ((6/5) * 1))
    (cx_ne_half x)
  unfold exitsPupil
  rw [show (⟨((1 : ℚ), (0 : ℚ)).1, ((1 : ℚ), (0 : ℚ)).2, 0⟩ : Vec3) = ⟨1, 0, 0⟩ from rfl]
  rw [show Vec3.sub (pupilCandidate 1 1 x y) ⟨1, 0, 0⟩ =
      ⟨lerp (((x : ℚ) + 1/2) / (pupilSampleCount : ℚ)) (-(6/5) * 1) ((6/5) * 1) - 1,
       lerp (((y : ℚ) + 1/2) / (pupilSampleCount : ℚ)) (-(6/5) * 1) ((6/5) * 1), 1⟩ from by
    simp [Vec3.sub, pupilCandidate]]
  rw [hvig]
  simp

/-- C8: when no grid candidate exits the lens system during exit-pupil
bound construction for an image point, BoundExitPupil returns the full
rear-element square (the bounding square of the rear-surface disk of
radius rearRadius), which is a nonempty rectangle whenever the rear
radius is positive. -/
theorem boundExitPupil_fallback (elems : List LensElementInterface) (pFilm : ℚ × ℚ)
    (h : exitingPupilPoints elems pFilm = []) :
    boundExitPupil elems pFilm =
      ⟨(-(rearElementRadius elems), -(rearElementRadius elems)),
       (rearElementRadius elems, rearElementRadius elems)⟩ ∧
    (0 < rearElementRadius elems →
      (boundExitPupil elems pFilm).pMin.1 < (boundExitPupil elems pFilm).pMax.1 ∧
      (boundExitPupil elems pFilm).pMin.2 < (boundExitPupil elems pFilm).pMax.2) := by
  have hb := boundExitPupil_eq_fallback elems pFilm h
  refine ⟨hb, fun hr => ?_⟩
  rw [hb]
  constructor <;> · simp only []; linarith

/-- Witness for C8 at the two-stop prescription and film point (1, 0),
where no candidate exits and the rear radius is 1. -/
theorem boundExitPupil_fallback_witness :
    boundExitPupil elemsC8 (1, 0) =
      ⟨(-(rearElementRadius elemsC8), -(rearElementRadius elemsC8)),
       (rearElementRadius elemsC8, rearElementRadius elemsC8)⟩ ∧
    (0 < rearElementRadius elemsC8 →
      (boundExitPupil elemsC8 (1, 0)).pMin.1 < (boundExitPupil elemsC8 (1, 0)).pMax.1 ∧
      (boundExitPupil elemsC8 (1, 0)).pMin.2 < (boundExitPupil elemsC8 (1, 0)).pMax.2) :=
  boundExitPupil_fallback elemsC8 (1, 0) exitingC8_nil

end RC
